import Mathlib

/-!
Shallow embedding of the MeetingSummary core components
(`audio_buffer.py`, `chunk_writer.py`, `transcript_merger.py`,
`recording_engine.py`, `pipeline.py`) and verification of the
specification's claims about them.

Python floats are modelled as rationals (`ℚ`), byte strings as
`List Nat`, and the `deque[bytes]` of the ring buffer as
`List (List Nat)` with the front of the list holding the oldest block.
-/

namespace MeetConclusion

attribute [local semireducible] Rat.mul Rat.inv Rat.add Rat.sub Rat.ofScientific

/-- Python `int()` applied to a rational: truncation toward zero
(`int(q)` in CPython). All call sites in the source pass nonnegative
values, where this coincides with the floor. -/
def pyInt (q : ℚ) : Int :=
  Int.tdiv q.num (q.den : Int)

/-- `AudioBuffer` from `audio/audio_buffer.py`: a bounded byte
accumulator backed by a deque of blocks. `total_bytes` mirrors the
`_total_bytes` field, `total_received_bytes` the `_total_received_bytes`
field. -/
structure AudioBuffer where
  sample_rate : Nat
  channels : Nat
  max_bytes : Nat
  buffer : List (List Nat)
  total_bytes : Nat
  total_received_bytes : Nat
deriving DecidableEq

/-- `self.bytes_per_second = sample_rate * channels * self.bytes_per_sample`
with `bytes_per_sample = 2` (16-bit). -/
def AudioBuffer.bytes_per_second (b : AudioBuffer) : Nat :=
  b.sample_rate * b.channels * 2

/-- `AudioBuffer.__init__`: `max_bytes = int(max_seconds * bytes_per_second)`,
empty deque, zeroed counters. -/
def mkAudioBuffer (max_seconds : ℚ) (sample_rate : Nat) (channels : Nat) : AudioBuffer :=
  { sample_rate := sample_rate
    channels := channels
    max_bytes := (pyInt (max_seconds * ((sample_rate * channels * 2 : Nat) : ℚ))).toNat
    buffer := []
    total_bytes := 0
    total_received_bytes := 0 }

/-- The eviction loop in `AudioBuffer.write`:
`while self._total_bytes > self.max_bytes and self._buffer:
   old = self._buffer.popleft(); self._total_bytes -= len(old)`. -/
def evictLoop (maxB : Nat) : List (List Nat) → Nat → List (List Nat) × Nat
  | [], tot => ([], tot)
  | old :: rest, tot =>
    if maxB < tot then evictLoop maxB rest (tot - old.length)
    else (old :: rest, tot)

/-- `AudioBuffer.write`: append the block, bump both counters, then run
the eviction loop. -/
def AudioBuffer.write (b : AudioBuffer) (data : List Nat) : AudioBuffer :=
  let p := evictLoop b.max_bytes (b.buffer ++ [data]) (b.total_bytes + data.length)
  { b with
    buffer := p.1
    total_bytes := p.2
    total_received_bytes := b.total_received_bytes + data.length }

/-- The byte-collecting loop in `AudioBuffer.read`: take whole blocks
from the front while they fit in `remaining`, split the first block
otherwise. Returns the bytes read and the remaining deque. -/
def readLoop : List (List Nat) → Nat → List Nat × List (List Nat)
  | buf, 0 => ([], buf)
  | [], _ => ([], [])
  | chunk :: rest, r =>
    if chunk.length ≤ r then
      let p := readLoop rest (r - chunk.length)
      (chunk ++ p.1, p.2)
    else
      (chunk.take r, chunk.drop r :: rest)

/-- `AudioBuffer.read`: `None` drains everything; a number removes up
to that many bytes from the front. Returns the data and the updated
buffer state. -/
def AudioBuffer.read (b : AudioBuffer) (num_bytes : Option Nat) : List Nat × AudioBuffer :=
  if b.buffer = [] then ([], b)
  else
    match num_bytes with
    | none => (b.buffer.flatten, { b with buffer := [], total_bytes := 0 })
    | some n =>
      let p := readLoop b.buffer n
      (p.1, { b with buffer := p.2, total_bytes := b.total_bytes - p.1.length })

/-- `AudioBuffer.peek`: returns data without removing it. -/
def AudioBuffer.peek (b : AudioBuffer) (num_bytes : Option Nat) : List Nat :=
  if b.buffer = [] then []
  else
    match num_bytes with
    | none => b.buffer.flatten
    | some n => b.buffer.flatten.take n

/-- `AudioBuffer.read_seconds`: `read(int(seconds * bytes_per_second))`. -/
def AudioBuffer.read_seconds (b : AudioBuffer) (seconds : ℚ) : List Nat × AudioBuffer :=
  b.read (some (pyInt (seconds * ((b.bytes_per_second : Nat) : ℚ))).toNat)

/-- `AudioBuffer.available_bytes`. -/
def AudioBuffer.available_bytes (b : AudioBuffer) : Nat :=
  b.total_bytes

/-- `AudioBuffer.available_seconds`. -/
def AudioBuffer.available_seconds (b : AudioBuffer) : ℚ :=
  (b.available_bytes : ℚ) / ((b.bytes_per_second : Nat) : ℚ)

/-- `AudioBuffer.total_received_seconds`. -/
def AudioBuffer.total_received_seconds (b : AudioBuffer) : ℚ :=
  (b.total_received_bytes : ℚ) / ((b.bytes_per_second : Nat) : ℚ)

/-- `AudioBuffer.clear`: empties the deque and `_total_bytes`, leaving
`_total_received_bytes` alone. -/
def AudioBuffer.clear (b : AudioBuffer) : AudioBuffer :=
  { b with buffer := [], total_bytes := 0 }

/-- `AudioBuffer.reset`: like `clear` but also zeroes
`_total_received_bytes`. -/
def AudioBuffer.reset (b : AudioBuffer) : AudioBuffer :=
  { b with buffer := [], total_bytes := 0, total_received_bytes := 0 }

/-- One mutating call on an `AudioBuffer` (the operations named by the
spec's counter claims). -/
inductive BufOp where
  | write (data : List Nat)
  | read (num_bytes : Option Nat)
  | peek (num_bytes : Option Nat)
  | clear
  | reset
deriving DecidableEq

/-- The state after one buffer operation (`peek` does not mutate). -/
def AudioBuffer.step (b : AudioBuffer) : BufOp → AudioBuffer
  | .write d => b.write d
  | .read n => (b.read n).2
  | .peek _ => b
  | .clear => b.clear
  | .reset => b.reset

/-- Well-formedness: the `_total_bytes` field agrees with the deque
contents. Holds for every state reachable from the constructor. -/
def AudioBuffer.wf (b : AudioBuffer) : Prop :=
  b.total_bytes = (b.buffer.map List.length).sum

/-- `TranscriptSegment` from `asr/base.py` (one timed text span). -/
structure TranscriptSegment where
  start_time : ℚ
  end_time : ℚ
  text : String
  speaker_id : Option String
  confidence : Option ℚ
deriving DecidableEq

/-- `TranscriptResult` from `asr/base.py`. -/
structure TranscriptResult where
  segments : List TranscriptSegment
  full_text : String
  duration : ℚ
  language : Option String
deriving DecidableEq

/-- `TranscriptMerger` state from `asr/transcript_merger.py`. -/
structure TranscriptMerger where
  overlap_threshold : ℚ
  segments : List TranscriptSegment
deriving DecidableEq

/-- `TranscriptMerger.__init__(overlap_threshold=0.5)`. -/
def mkTranscriptMerger (overlap_threshold : ℚ) : TranscriptMerger :=
  { overlap_threshold := overlap_threshold, segments := [] }

/-- `TranscriptMerger._calculate_time_overlap`. -/
def calculate_time_overlap (seg1 seg2 : TranscriptSegment) : ℚ :=
  max 0 (min seg1.end_time seg2.end_time - max seg1.start_time seg2.start_time)

/-- Whitespace stripping in `_calculate_text_similarity`:
`text.replace(" ", "").replace("\n", "")`, on the character list. -/
def stripWs (t : String) : List Char :=
  t.toList.filter (fun c => !(c = ' ' || c = Char.ofNat 10))

/-- `TranscriptMerger._calculate_text_similarity`: character-set Jaccard
similarity of the whitespace-stripped strings, with the source's early
returns for empty inputs. -/
def calculate_text_similarity (text1 text2 : String) : ℚ :=
  if text1 = "" ∨ text2 = "" then 0
  else
    let l1 := stripWs text1
    let l2 := stripWs text2
    if l1 = [] ∨ l2 = [] then 0
    else
      let s1 := l1.toFinset
      let s2 := l2.toFinset
      let inter := (s1 ∩ s2).card
      let uni := (s1 ∪ s2).card
      if uni = 0 then 0 else (inter : ℚ) / (uni : ℚ)

/-- `TranscriptMerger._add_segment`: compare the new span against the
last (up to) 5 accepted spans; it is a duplicate when some candidate has
time overlap above `overlap_threshold` and text similarity above 0.7. -/
def TranscriptMerger.add_segment (m : TranscriptMerger) (new_segment : TranscriptSegment) :
    TranscriptMerger :=
  if m.segments = [] then { m with segments := m.segments ++ [new_segment] }
  else
    let candidates := m.segments.reverse.take 5
    let is_duplicate := candidates.any (fun existing =>
      if m.overlap_threshold < calculate_time_overlap existing new_segment then
        if (7 : ℚ) / 10 < calculate_text_similarity existing.text new_segment.text then
          true
        else false
      else false)
    if is_duplicate then m else { m with segments := m.segments ++ [new_segment] }

/-- `TranscriptMerger.add_result`: fold `_add_segment` over the result's
spans in order. -/
def TranscriptMerger.add_result (m : TranscriptMerger) (result : TranscriptResult) :
    TranscriptMerger :=
  result.segments.foldl TranscriptMerger.add_segment m

/-- The comparison key used by `sorted(self._segments, key=lambda s: s.start_time)`.
Python's `sorted` is stable, as is insertion sort, and any two stable
sorts by the same key agree, so `List.insertionSort` embeds it exactly. -/
def segBefore (a b : TranscriptSegment) : Prop :=
  a.start_time ≤ b.start_time

instance : DecidableRel segBefore := fun _ _ => inferInstanceAs (Decidable (_ ≤ _))

instance : IsTotal TranscriptSegment segBefore :=
  ⟨fun a b => le_total a.start_time b.start_time⟩

instance : IsTrans TranscriptSegment segBefore :=
  ⟨fun _ _ _ h h' => le_trans h h'⟩

/-- `TranscriptMerger.get_merged_result`: sort by start time, join the
texts in sorted order, duration is last end minus first start (0 when
empty). -/
def TranscriptMerger.get_merged_result (m : TranscriptMerger) : TranscriptResult :=
  let sorted_segments := m.segments.insertionSort segBefore
  let full_text := String.join (sorted_segments.map (fun s => s.text))
  let duration : ℚ :=
    if h : sorted_segments = [] then 0
    else (sorted_segments.getLast h).end_time - (sorted_segments.head h).start_time
  { segments := sorted_segments
    full_text := full_text
    duration := duration
    language := some "zh-CN" }

/-- `TranscriptMerger.segment_count`. -/
def TranscriptMerger.segment_count (m : TranscriptMerger) : Nat :=
  m.segments.length

/-- `ChunkInfo` from `audio/chunk_writer.py` (file path and wall-clock
start are external I/O concerns; the emitted byte payload is kept so the
timing claims can speak about its length). -/
structure ChunkInfo where
  index : Nat
  start_time : ℚ
  end_time : ℚ
  data : List Nat
deriving DecidableEq

/-- `ChunkInfo.duration = end_time - start_time`. -/
def ChunkInfo.duration (c : ChunkInfo) : ℚ :=
  c.end_time - c.start_time

/-- `ChunkWriter` state from `audio/chunk_writer.py`. -/
structure ChunkWriter where
  sample_rate : Nat
  channels : Nat
  chunk_duration : ℚ
  overlap_duration : ℚ
  buffer : AudioBuffer
  chunk_index : Nat
  is_running : Bool
  overlap_data : List Nat
deriving DecidableEq

/-- `self.bytes_per_second = sample_rate * channels * 2` (16-bit). -/
def ChunkWriter.bytes_per_second (w : ChunkWriter) : Nat :=
  w.sample_rate * w.channels * 2

/-- `ChunkWriter.__init__`: internal buffer sized to
`max_seconds = chunk_duration * 2`; not yet running. -/
def mkChunkWriter (sample_rate channels : Nat) (chunk_duration overlap_duration : ℚ) :
    ChunkWriter :=
  { sample_rate := sample_rate
    channels := channels
    chunk_duration := chunk_duration
    overlap_duration := overlap_duration
    buffer := mkAudioBuffer (chunk_duration * 2) sample_rate channels
    chunk_index := 0
    is_running := false
    overlap_data := [] }

/-- `ChunkWriter.start`: reset index, overlap carry and buffer; mark
running. -/
def ChunkWriter.start (w : ChunkWriter) : ChunkWriter :=
  { w with
    is_running := true
    chunk_index := 0
    overlap_data := []
    buffer := w.buffer.reset }

/-- Python's `data[-k:]` slice for `k ≥ 0` (note `data[-0:]` is the whole
list). Used for the overlap carry in `_save_chunk`. -/
def pySliceLast (data : List Nat) (k : Nat) : List Nat :=
  if k = 0 then data else data.drop (data.length - k)

/-- `ChunkWriter._save_chunk`: read one chunk worth of bytes, prepend
the carried overlap, recompute the carry, compute the segment timing
(`index * D`, minus `O` for a nonzero index, clamped at 0 for the
recorded start), emit the `ChunkInfo` and advance the index. Returns
`none` when not running or when the buffer gave no data. -/
def ChunkWriter.save_chunk (w : ChunkWriter) : Option ChunkInfo × ChunkWriter :=
  if w.is_running = false then (none, w)
  else
    let chunk_bytes := (pyInt (w.chunk_duration * ((w.bytes_per_second : Nat) : ℚ))).toNat
    let p := w.buffer.read (some chunk_bytes)
    if p.1 = [] then (none, { w with buffer := p.2 })
    else
      let data := w.overlap_data ++ p.1
      let overlap_bytes := (pyInt (w.overlap_duration * ((w.bytes_per_second : Nat) : ℚ))).toNat
      let new_overlap := if overlap_bytes < data.length then pySliceLast data overlap_bytes else data
      let start_raw : ℚ := (w.chunk_index : ℚ) * w.chunk_duration -
        (if 0 < w.chunk_index then w.overlap_duration else 0)
      let end_time : ℚ := start_raw + (data.length : ℚ) / ((w.bytes_per_second : Nat) : ℚ)
      let info : ChunkInfo :=
        { index := w.chunk_index
          start_time := max 0 start_raw
          end_time := end_time
          data := data }
      (some info,
       { w with
         buffer := p.2
         overlap_data := new_overlap
         chunk_index := w.chunk_index + 1 })

/-- `ChunkWriter.write`: dropped when not running; otherwise feed the
buffer and save one chunk if a chunk's duration is available. -/
def ChunkWriter.write (w : ChunkWriter) (data : List Nat) : Option ChunkInfo × ChunkWriter :=
  if w.is_running = false then (none, w)
  else
    let w' := { w with buffer := w.buffer.write data }
    if w.chunk_duration ≤ w'.buffer.available_seconds then w'.save_chunk
    else (none, w')

/-- `ChunkWriter.stop`: mark not running, drain the buffer and flush the
remainder (prefixed with the overlap carry) as a final segment with the
same timing formula; the index is not advanced. -/
def ChunkWriter.stop (w : ChunkWriter) : Option ChunkInfo × ChunkWriter :=
  if w.is_running = false then (none, w)
  else
    let p := w.buffer.read none
    let w' := { w with is_running := false, buffer := p.2 }
    if p.1 = [] then (none, w')
    else
      let data := w.overlap_data ++ p.1
      let start_raw : ℚ := (w.chunk_index : ℚ) * w.chunk_duration -
        (if 0 < w.chunk_index then w.overlap_duration else 0)
      let end_time : ℚ := start_raw + (data.length : ℚ) / ((w.bytes_per_second : Nat) : ℚ)
      let info : ChunkInfo :=
        { index := w.chunk_index
          start_time := max 0 start_raw
          end_time := end_time
          data := data }
      (some info, w')

/-- `ChunkWriter.get_chunk_count`. -/
def ChunkWriter.get_chunk_count (w : ChunkWriter) : Nat :=
  w.chunk_index

/-- `ChunkWriter.get_total_duration`: cumulative received audio, in
seconds. -/
def ChunkWriter.get_total_duration (w : ChunkWriter) : ℚ :=
  w.buffer.total_received_seconds

/-- Feed a list of `write` calls to a chunk writer, collecting the
segments emitted along the way (the non-final segments). -/
def runWriter (w : ChunkWriter) : List (List Nat) → List ChunkInfo × ChunkWriter
  | [] => ([], w)
  | d :: rest =>
    let p := w.write d
    let q := runWriter p.2 rest
    (p.1.toList ++ q.1, q.2)

/-- Feed a list of `write` calls and then `stop()`, collecting every
emitted segment including the final flush. -/
def runWriterStop (w : ChunkWriter) (datas : List (List Nat)) : List ChunkInfo × ChunkWriter :=
  let p := runWriter w datas
  let q := p.2.stop
  (p.1 ++ q.1.toList, q.2)

/-- `RecordingState` from `core/recording_engine.py`. -/
inductive RecordingState where
  | IDLE
  | STARTING
  | RECORDING
  | STOPPING
  | STOPPED
deriving DecidableEq

/-- `RecordingEngine` state. The WASAPI capture source, the repositories
and the wall clock are external; `datetime.now()` is passed in as a
rational `now`, and success of `capture.start()` as a boolean. -/
structure RecordingEngine where
  state : RecordingState
  meeting_id : Option Nat
  start_time : Option ℚ
  chunk_writer : Option ChunkWriter
deriving DecidableEq

/-- `RecordingEngine.__init__`. -/
def mkRecordingEngine : RecordingEngine :=
  { state := .IDLE, meeting_id := none, start_time := none, chunk_writer := none }

/-- `RecordingEngine.start`: rejected unless `IDLE`; on capture failure
the exception handler tears the writer down and returns to `IDLE`
(leaving `meeting_id` assigned and `start_time` untouched); on success
the engine is `RECORDING` with the session start recorded. -/
def RecordingEngine.start (e : RecordingEngine) (meeting_id : Nat) (now : ℚ)
    (capture_ok : Bool) (sample_rate channels : Nat) (chunk_duration overlap_duration : ℚ) :
    Bool × RecordingEngine :=
  if e.state ≠ .IDLE then (false, e)
  else
    let e₁ := { e with state := RecordingState.STARTING, meeting_id := some meeting_id }
    let cw := (mkChunkWriter sample_rate channels chunk_duration overlap_duration).start
    if capture_ok then
      (true, { e₁ with
        chunk_writer := some cw
        start_time := some now
        state := .RECORDING })
    else
      (false, { e₁ with chunk_writer := none, state := .IDLE })

/-- `RecordingEngine._handle_audio_data`: forwarded to the writer only
while a writer exists and the state is `RECORDING`. -/
def RecordingEngine.handle_audio (e : RecordingEngine) (data : List Nat) : RecordingEngine :=
  match e.chunk_writer with
  | some w =>
    if e.state = .RECORDING then { e with chunk_writer := some (w.write data).2 }
    else e
  | none => e

/-- `RecordingEngine.stop`: rejected (returning 0.0) unless `RECORDING`;
otherwise the writer is stopped and its cumulative received duration
returned, and the `finally` block runs `_cleanup` (dropping the writer)
and moves to `STOPPED`. -/
def RecordingEngine.stop (e : RecordingEngine) : ℚ × RecordingEngine :=
  if e.state ≠ .RECORDING then (0, e)
  else
    let duration : ℚ :=
      match e.chunk_writer with
      | some w => ((w.stop).2).get_total_duration
      | none => 0
    (duration, { e with chunk_writer := none, state := .STOPPED })

/-- `RecordingEngine.reset`: rejected while `RECORDING`; otherwise
release resources and return to `IDLE`. -/
def RecordingEngine.reset (e : RecordingEngine) : RecordingEngine :=
  if e.state = .RECORDING then e
  else { e with chunk_writer := none, meeting_id := none, start_time := none, state := .IDLE }

/-- `RecordingEngine.get_elapsed_seconds`: wall clock minus session
start while `RECORDING` (and a start instant exists), else the attached
writer's cumulative duration, else 0.0. -/
def RecordingEngine.get_elapsed_seconds (e : RecordingEngine) (now : ℚ) : ℚ :=
  if e.start_time.isSome ∧ e.state = .RECORDING then now - e.start_time.getD 0
  else
    match e.chunk_writer with
    | some w => w.get_total_duration
    | none => 0

/-- `PipelineState` from `core/pipeline.py`. -/
inductive PipelineState where
  | IDLE
  | TRANSCRIBING
  | MERGING
  | GENERATING
  | DONE
  | FAILED
deriving DecidableEq

/-- The meeting row handed back by `MeetingRepository.get_by_id`
(persistence is external; only identity and title reach the pipeline). -/
structure Meeting where
  id : Nat
  title : String
deriving DecidableEq

/-- The structured payload parsed from the generation provider
(`MinutesGenerator.generate`). -/
structure MinutesResult where
  summary : String
  decisions : List String
  action_items : List String
  topics : List String
deriving DecidableEq

/-- Externally observable persistence/provider effects of one pipeline
run. An empty event list means nothing was persisted and no provider was
invoked. -/
inductive PipeEvent where
  | statusUpdate (meeting_id : Nat) (status : String)
  | asrCall (url : String)
  | genCall (meeting_id : Nat)
  | deleteTranscripts (meeting_id : Nat)
  | saveTranscripts (meeting_id : Nat) (rows : List TranscriptSegment)
  | saveMinutes (meeting_id : Nat) (summary : String)
      (decisions : List String) (action_items : List String) (topics : List String)
deriving DecidableEq

/-- The pipeline's external collaborators: repositories (read side) and
the ASR / generation providers, which may fail (`Except.error` models a
raised provider exception). -/
structure PipelineEnv where
  meetings : Nat → Option Meeting
  chunks_nonempty : Nat → Bool
  notes : Nat → List String
  asr_transcribe_url : String → Except String TranscriptResult
  generate : Option Meeting → TranscriptResult → List String → Except String MinutesResult

/-- `MeetingPipeline` state. -/
structure MeetingPipeline where
  state : PipelineState
  current_meeting_id : Option Nat
deriving DecidableEq

/-- The URL loop in `MeetingPipeline._transcribe`: call the ASR provider
per URL, folding each result into the merger; a provider exception
aborts the loop and propagates. -/
def transcribeUrls (env : PipelineEnv) (m : TranscriptMerger) :
    List String → List PipeEvent × Except String TranscriptResult
  | [] => ([], Except.ok m.get_merged_result)
  | u :: rest =>
    match env.asr_transcribe_url u with
    | Except.error e => ([PipeEvent.asrCall u], Except.error e)
    | Except.ok result =>
      let p := transcribeUrls env (m.add_result result) rest
      (PipeEvent.asrCall u :: p.1, p.2)

/-- `MeetingPipeline._transcribe`: with URLs, run the ASR loop over a
fresh default merger; without URLs, return an empty result (the
local-chunk path logs and skips ASR in the source). -/
def pipelineTranscribe (env : PipelineEnv) (meeting_id : Nat) (audio_urls : List String) :
    List PipeEvent × Except String TranscriptResult :=
  if audio_urls ≠ [] then
    transcribeUrls env (mkTranscriptMerger (1 / 2)) audio_urls
  else
    if env.chunks_nonempty meeting_id = false then
      ([], Except.ok { segments := [], full_text := "", duration := 0, language := none })
    else
      ([], Except.ok (mkTranscriptMerger (1 / 2)).get_merged_result)

/-- `MeetingPipeline._save_transcripts`: delete the prior rows, then
batch-create the new ones when the transcript is nonempty. -/
def pipelineSaveTranscripts (meeting_id : Nat) (transcript : TranscriptResult) :
    List PipeEvent :=
  PipeEvent.deleteTranscripts meeting_id ::
    (if transcript.segments ≠ [] then
      [PipeEvent.saveTranscripts meeting_id transcript.segments]
    else [])

/-- `MeetingPipeline._generate_minutes`: with an empty transcript,
persist the "（无转写内容）" placeholder with empty JSON arrays and skip
the provider; otherwise invoke the generation provider and persist its
parsed result (a provider exception propagates). -/
def pipelineGenerateMinutes (env : PipelineEnv) (meeting_id : Nat)
    (transcript : TranscriptResult) : List PipeEvent × Except String Unit :=
  let meeting := env.meetings meeting_id
  let notes := env.notes meeting_id
  if transcript.segments = [] then
    ([PipeEvent.saveMinutes meeting_id "（无转写内容）" [] [] []], Except.ok ())
  else
    match env.generate meeting transcript notes with
    | Except.error e => ([PipeEvent.genCall meeting_id], Except.error e)
    | Except.ok result =>
      ([PipeEvent.genCall meeting_id,
        PipeEvent.saveMinutes meeting_id result.summary result.decisions
          result.action_items result.topics],
       Except.ok ())

/-- `MeetingPipeline.process`: reject (before any side effect) unless
the state is `IDLE`, `DONE` or `FAILED`; otherwise mark processing, run
transcribe → save → generate, ending `DONE` on success or `FAILED` on
the first exception, with `current_meeting_id` cleared by the `finally`
block in every completed run. -/
def MeetingPipeline.process (p : MeetingPipeline) (env : PipelineEnv) (meeting_id : Nat)
    (audio_urls : List String) : Bool × MeetingPipeline × List PipeEvent :=
  if ¬(p.state = .IDLE ∨ p.state = .DONE ∨ p.state = .FAILED) then
    (false, p, [])
  else
    match env.meetings meeting_id with
    | none =>
      (false, { state := .FAILED, current_meeting_id := none },
       [PipeEvent.statusUpdate meeting_id "failed"])
    | some _ =>
      let ev₀ := [PipeEvent.statusUpdate meeting_id "processing"]
      let t := pipelineTranscribe env meeting_id audio_urls
      match t.2 with
      | Except.error _ =>
        (false, { state := .FAILED, current_meeting_id := none },
         ev₀ ++ t.1 ++ [PipeEvent.statusUpdate meeting_id "failed"])
      | Except.ok transcript =>
        let ev₁ := pipelineSaveTranscripts meeting_id transcript
        let g := pipelineGenerateMinutes env meeting_id transcript
        match g.2 with
        | Except.error _ =>
          (false, { state := .FAILED, current_meeting_id := none },
           ev₀ ++ t.1 ++ ev₁ ++ g.1 ++ [PipeEvent.statusUpdate meeting_id "failed"])
        | Except.ok _ =>
          (true, { state := .DONE, current_meeting_id := none },
           ev₀ ++ t.1 ++ ev₁ ++ g.1 ++ [PipeEvent.statusUpdate meeting_id "done"])

/-! ### Ring buffer lemmas -/

/-- The eviction loop keeps the byte counter consistent, ends at or
under the cap, and only removes whole blocks from the front. -/
theorem evictLoop_spec (maxB : Nat) :
    ∀ (buf : List (List Nat)) (tot : Nat), tot = (buf.map List.length).sum →
      (evictLoop maxB buf tot).2 = (((evictLoop maxB buf tot).1.map List.length)).sum ∧
      (evictLoop maxB buf tot).2 ≤ maxB ∧
      (evictLoop maxB buf tot).1 <:+ buf := by
  intro buf
  induction buf with
  | nil =>
    intro tot ht
    simp [evictLoop] at ht ⊢
    omega
  | cons old rest ih =>
    intro tot ht
    simp only [List.map_cons, List.sum_cons] at ht
    by_cases h : maxB < tot
    · have hrec := ih (tot - old.length) (by omega)
      simp only [evictLoop, if_pos h]
      exact ⟨hrec.1, hrec.2.1, hrec.2.2.trans (List.suffix_cons old rest)⟩
    · simp only [evictLoop, if_neg h]
      exact ⟨ht, by omega, List.suffix_refl _⟩

/-- When the counter is already within the cap the eviction loop does
nothing. -/
theorem evictLoop_noop (maxB : Nat) (buf : List (List Nat)) (tot : Nat)
    (h : tot ≤ maxB) : evictLoop maxB buf tot = (buf, tot) := by
  cases buf with
  | nil => rfl
  | cons old rest => simp [evictLoop, Nat.not_lt.mpr h]

/-- `write` preserves well-formedness. -/
theorem AudioBuffer.write_wf (b : AudioBuffer) (d : List Nat) (hwf : b.wf) :
    (b.write d).wf := by
  have h := evictLoop_spec b.max_bytes (b.buffer ++ [d]) (b.total_bytes + d.length)
    (by simp [AudioBuffer.wf] at hwf; simp [hwf])
  simpa [AudioBuffer.write, AudioBuffer.wf] using h.1

/-- After any `write` on a well-formed buffer the byte count is within
the configured cap. -/
theorem AudioBuffer.write_le_max (b : AudioBuffer) (d : List Nat) (hwf : b.wf) :
    (b.write d).total_bytes ≤ b.max_bytes := by
  have h := evictLoop_spec b.max_bytes (b.buffer ++ [d]) (b.total_bytes + d.length)
    (by simp [AudioBuffer.wf] at hwf; simp [hwf])
  simpa [AudioBuffer.write] using h.2.1

/-- `write` drops only whole blocks from the front: the new deque is a
suffix of the old deque with the new block appended. -/
theorem AudioBuffer.write_suffix (b : AudioBuffer) (d : List Nat) (hwf : b.wf) :
    (b.write d).buffer <:+ b.buffer ++ [d] := by
  have h := evictLoop_spec b.max_bytes (b.buffer ++ [d]) (b.total_bytes + d.length)
    (by simp [AudioBuffer.wf] at hwf; simp [hwf])
  simpa [AudioBuffer.write] using h.2.2

theorem AudioBuffer.write_fields (b : AudioBuffer) (d : List Nat) :
    (b.write d).max_bytes = b.max_bytes ∧
    (b.write d).sample_rate = b.sample_rate ∧
    (b.write d).channels = b.channels ∧
    (b.write d).total_received_bytes = b.total_received_bytes + d.length := by
  simp [AudioBuffer.write]

/-- Appending a common list on the right preserves the suffix relation. -/
theorem suffix_append_right {α : Type} {l₁ l₂ : List α} (h : l₁ <:+ l₂) (r : List α) :
    l₁ ++ r <:+ l₂ ++ r := by
  obtain ⟨t, rfl⟩ := h
  exact ⟨t, by simp⟩

/-- Flattening preserves the suffix relation. -/
theorem flatten_suffix {l₁ l₂ : List (List Nat)} (h : l₁ <:+ l₂) :
    l₁.flatten <:+ l₂.flatten := by
  obtain ⟨t, rfl⟩ := h
  exact ⟨t.flatten, by simp⟩

/-- The state after a sequence of writes: well-formed, within the cap,
with the deque a suffix of the blocks ever written. -/
theorem foldWrites_spec (ws : List (List Nat)) :
    ∀ b : AudioBuffer, b.wf →
      (ws.foldl AudioBuffer.write b).wf ∧
      (ws.foldl AudioBuffer.write b).max_bytes = b.max_bytes ∧
      (ws.foldl AudioBuffer.write b).buffer <:+ b.buffer ++ ws := by
  induction ws with
  | nil => intro b hwf; exact ⟨hwf, rfl, by simp⟩
  | cons d rest ih =>
    intro b hwf
    have h1 := ih (b.write d) (b.write_wf d hwf)
    refine ⟨h1.1, h1.2.1.trans (b.write_fields d).1, ?_⟩
    have h2 : (b.write d).buffer ++ rest <:+ (b.buffer ++ [d]) ++ rest :=
      suffix_append_right (b.write_suffix d hwf) rest
    simpa using h1.2.2.trans h2

/-- Every intermediate state of a write sequence from a fresh buffer is
within the cap. -/
theorem foldWrites_le_max (ws : List (List Nat)) :
    ∀ b : AudioBuffer, b.wf → b.total_bytes ≤ b.max_bytes →
      (ws.foldl AudioBuffer.write b).total_bytes ≤ b.max_bytes := by
  induction ws with
  | nil => intro b _ hle; exact hle
  | cons d rest ih =>
    intro b hwf _
    have := ih (b.write d) (b.write_wf d hwf)
      (((b.write_fields d).1 ▸ b.write_le_max d hwf))
    simpa [(b.write_fields d).1] using this

/-- Draining `read(None)` returns the concatenation of the deque. -/
theorem AudioBuffer.read_none_eq (b : AudioBuffer) :
    (b.read none).1 = b.buffer.flatten := by
  by_cases h : b.buffer = []
  · simp [AudioBuffer.read, h]
  · simp [AudioBuffer.read, h]

/-- C4. For every sequence of Ring Buffer `write` calls whose total size
exceeds `max_bytes`, after every write `available_bytes()` is at most
`max_bytes`, and the content returned by a draining read of the final
state is a suffix of the concatenation of all bytes written (whole
oldest blocks are dropped first). -/
theorem c4_ring_overflow (max_seconds : ℚ) (sr ch : Nat) (ws : List (List Nat))
    (_hover : (mkAudioBuffer max_seconds sr ch).max_bytes < (ws.map List.length).sum) :
    (∀ i : Nat,
      ((ws.take i).foldl AudioBuffer.write (mkAudioBuffer max_seconds sr ch)).available_bytes
        ≤ (mkAudioBuffer max_seconds sr ch).max_bytes) ∧
    (((ws.foldl AudioBuffer.write (mkAudioBuffer max_seconds sr ch)).read none).1
        <:+ ws.flatten) := by
  have hwf : (mkAudioBuffer max_seconds sr ch).wf := by simp [mkAudioBuffer, AudioBuffer.wf]
  constructor
  · intro i
    exact foldWrites_le_max (ws.take i) _ hwf (by simp [mkAudioBuffer])
  · rw [AudioBuffer.read_none_eq]
    have h := (foldWrites_spec ws _ hwf).2.2
    simpa [mkAudioBuffer] using flatten_suffix h

/-- Witness for C4 at a concrete overflowing write sequence
(`max_bytes = 2`, three one-byte writes). -/
theorem c4_ring_overflow_witness :
    (mkAudioBuffer 1 1 1).max_bytes < ([[1], [2], [3]].map List.length).sum ∧
    ((∀ i : Nat,
      (([[1], [2], [3]].take i).foldl AudioBuffer.write (mkAudioBuffer 1 1 1)).available_bytes
        ≤ (mkAudioBuffer 1 1 1).max_bytes) ∧
    ((([[1], [2], [3]].foldl AudioBuffer.write (mkAudioBuffer 1 1 1)).read none).1
        <:+ [[1], [2], [3]].flatten)) :=
  ⟨by decide, c4_ring_overflow 1 1 1 [[1], [2], [3]] (by decide)⟩

/-- The received-bytes counter after one operation: writes add the block
length, `reset` zeroes it, everything else leaves it alone. -/
theorem AudioBuffer.step_received (b : AudioBuffer) (op : BufOp) :
    (b.step op).total_received_bytes =
      match op with
      | .write d => b.total_received_bytes + d.length
      | .reset => 0
      | _ => b.total_received_bytes := by
  cases op with
  | write d => simp [AudioBuffer.step, AudioBuffer.write]
  | read n =>
    by_cases h : b.buffer = []
    · cases n <;> simp [AudioBuffer.step, AudioBuffer.read, h]
    · cases n <;> simp [AudioBuffer.step, AudioBuffer.read, h]
  | peek n => rfl
  | clear => rfl
  | reset => rfl

theorem AudioBuffer.step_rate (b : AudioBuffer) (op : BufOp) :
    (b.step op).bytes_per_second = b.bytes_per_second := by
  cases op with
  | write d => rfl
  | read n =>
    by_cases h : b.buffer = []
    · cases n <;> simp [AudioBuffer.step, AudioBuffer.read, AudioBuffer.bytes_per_second, h]
    · cases n <;> simp [AudioBuffer.step, AudioBuffer.read, AudioBuffer.bytes_per_second, h]
  | peek n => rfl
  | clear => rfl
  | reset => rfl

/-- C5. `total_received_seconds()` never decreases across `write`,
`read`, `peek` and `clear`; it is left exactly unchanged by `clear()`
and set back to zero by `reset()` (the only operation that lowers it). -/
theorem c5_received_monotone (b : AudioBuffer) (op : BufOp) :
    (op ≠ BufOp.reset → b.total_received_seconds ≤ (b.step op).total_received_seconds) ∧
    (b.step BufOp.clear).total_received_seconds = b.total_received_seconds ∧
    (b.step BufOp.reset).total_received_seconds = 0 := by
  refine ⟨?_, ?_, ?_⟩
  · intro hne
    have hb : b.total_received_bytes ≤ (b.step op).total_received_bytes := by
      cases op with
      | write d => rw [b.step_received (BufOp.write d)]; exact Nat.le_add_right _ _
      | read n => rw [b.step_received (BufOp.read n)]
      | peek n => rw [b.step_received (BufOp.peek n)]
      | clear => rw [b.step_received BufOp.clear]
      | reset => exact absurd rfl hne
    unfold AudioBuffer.total_received_seconds
    rw [b.step_rate op]
    by_cases hz : ((b.bytes_per_second : Nat) : ℚ) = 0
    · simp [hz]
    · have hpos : (0 : ℚ) < ((b.bytes_per_second : Nat) : ℚ) :=
        lt_of_le_of_ne (by positivity) (Ne.symm hz)
      exact (div_le_div_iff_of_pos_right hpos).mpr (by exact_mod_cast hb)
  · unfold AudioBuffer.total_received_seconds
    rw [b.step_rate BufOp.clear, b.step_received BufOp.clear]
  · unfold AudioBuffer.total_received_seconds
    rw [b.step_rate BufOp.reset, b.step_received BufOp.reset]
    simp

/-- Witness for C5: a concrete non-`reset` operation on a concrete
buffer. -/
theorem c5_received_monotone_witness :
    (mkAudioBuffer 1 1 1).total_received_seconds ≤
      ((mkAudioBuffer 1 1 1).step BufOp.clear).total_received_seconds :=
  (c5_received_monotone (mkAudioBuffer 1 1 1) BufOp.clear).1 (by decide)

/-- When the freshly appended block alone exceeds the cap, the eviction
loop drains the whole deque. -/
theorem evictLoop_all (maxB : Nat) (data : List Nat) (hbig : maxB < data.length) :
    ∀ (buf : List (List Nat)) (tot : Nat), tot = (buf.map List.length).sum →
      evictLoop maxB (buf ++ [data]) (tot + data.length) = ([], 0) := by
  intro buf
  induction buf with
  | nil =>
    intro tot ht
    simp at ht
    subst ht
    simp [evictLoop, hbig]
  | cons old rest ih =>
    intro tot ht
    simp only [List.map_cons, List.sum_cons] at ht
    have hlt : maxB < tot + data.length := by omega
    simp only [List.cons_append, evictLoop, if_pos hlt]
    have : tot + data.length - old.length =
        ((rest.map List.length).sum) + data.length := by omega
    rw [this]
    exact ih _ rfl

/-- C10. A single `write(data)` with `len(data) > max_bytes` empties the
buffer entirely — the block-granular eviction loop removes every block
including the just-written one — while `total_received` still grows by
`len(data)`. -/
theorem c10_oversized_write (b : AudioBuffer) (data : List Nat) (hwf : b.wf)
    (hbig : b.max_bytes < data.length) :
    (b.write data).available_bytes = 0 ∧
    (b.write data).buffer = [] ∧
    (b.write data).total_received_bytes = b.total_received_bytes + data.length := by
  have h := evictLoop_all b.max_bytes data hbig b.buffer b.total_bytes hwf
  simp [AudioBuffer.write, AudioBuffer.available_bytes, h]

/-- Witness for C10: a 3-byte write into a buffer capped at 2 bytes. -/
theorem c10_oversized_write_witness :
    (mkAudioBuffer 1 1 1).wf ∧ (mkAudioBuffer 1 1 1).max_bytes < ([1, 2, 3] : List Nat).length ∧
    (((mkAudioBuffer 1 1 1).write [1, 2, 3]).available_bytes = 0 ∧
     ((mkAudioBuffer 1 1 1).write [1, 2, 3]).buffer = [] ∧
     ((mkAudioBuffer 1 1 1).write [1, 2, 3]).total_received_bytes =
       (mkAudioBuffer 1 1 1).total_received_bytes + ([1, 2, 3] : List Nat).length) :=
  ⟨by simp [mkAudioBuffer, AudioBuffer.wf], by decide,
   c10_oversized_write (mkAudioBuffer 1 1 1) [1, 2, 3] (by simp [mkAudioBuffer, AudioBuffer.wf])
     (by decide)⟩

/-! ### Transcript merge engine claims -/

/-- C1 counterexample. The spec's first example is false on the code:
adding (0.0, 2.0, "hello there") and then (1.8, 3.5, "hello there") to a
fresh merger with default thresholds does NOT yield a single span — the
temporal overlap of the two spans is 0.2 s, which does not exceed the
0.5 s threshold, so no deduplication happens. -/
theorem c1_merge_examples_cex :
    ¬ ((((mkTranscriptMerger (1 / 2)).add_segment
          { start_time := 0, end_time := 2, text := "hello there",
            speaker_id := none, confidence := none }).add_segment
          { start_time := 9 / 5, end_time := 7 / 2, text := "hello there",
            speaker_id := none, confidence := none }).get_merged_result.segments.length = 1) := by
  decide

/-- C1 amended. With default thresholds, adding (0.0, 2.0, "hello there")
then (1.8, 3.5, "hello there") yields a merged transcript with two spans
(temporal overlap 0.2 s ≤ 0.5 s threshold, so both are kept), and adding
(0.0, 2.0, "hello") then (5.0, 7.0, "hello") also yields two spans. -/
theorem c1_merge_examples_amended :
    ((((mkTranscriptMerger (1 / 2)).add_segment
        { start_time := 0, end_time := 2, text := "hello there",
          speaker_id := none, confidence := none }).add_segment
        { start_time := 9 / 5, end_time := 7 / 2, text := "hello there",
          speaker_id := none, confidence := none }).get_merged_result.segments.length = 2) ∧
    ((((mkTranscriptMerger (1 / 2)).add_segment
        { start_time := 0, end_time := 2, text := "hello",
          speaker_id := none, confidence := none }).add_segment
        { start_time := 5, end_time := 7, text := "hello",
          speaker_id := none, confidence := none }).get_merged_result.segments.length = 2) := by
  decide

/-- C9. `get_merged_result()` returns the accepted spans sorted by start
time (a permutation of the accepted set), full text equal to the
concatenation of the span texts in that sorted order, and total duration
equal to last end minus first start under the sorted order, 0 when there
are no spans. -/
theorem c9_merged_result (m : TranscriptMerger) :
    List.Sorted segBefore (m.get_merged_result).segments ∧
    List.Perm (m.get_merged_result).segments m.segments ∧
    (m.get_merged_result).full_text =
      String.join ((m.get_merged_result).segments.map (fun s => s.text)) ∧
    ((m.get_merged_result).segments = [] → (m.get_merged_result).duration = 0) ∧
    (∀ h : (m.get_merged_result).segments ≠ [],
      (m.get_merged_result).duration =
        ((m.get_merged_result).segments.getLast h).end_time -
        ((m.get_merged_result).segments.head h).start_time) := by
  refine ⟨?_, ?_, ?_, ?_, ?_⟩
  · exact List.sorted_insertionSort segBefore m.segments
  · exact List.perm_insertionSort segBefore m.segments
  · rfl
  · intro h
    simp only [TranscriptMerger.get_merged_result] at h ⊢
    simp [h]
  · intro h
    simp only [TranscriptMerger.get_merged_result] at h ⊢
    rw [dif_neg h]

/-- Witness for C9 at a one-span merger (discharging the nonemptiness
hypothesis of the duration clause). -/
theorem c9_merged_result_witness :
    ((mkTranscriptMerger (1 / 2)).add_segment
        { start_time := 1, end_time := 2, text := "b",
          speaker_id := none, confidence := none }).get_merged_result.duration =
      (((mkTranscriptMerger (1 / 2)).add_segment
        { start_time := 1, end_time := 2, text := "b",
          speaker_id := none, confidence := none }).get_merged_result.segments.getLast
          (by decide)).end_time -
      (((mkTranscriptMerger (1 / 2)).add_segment
        { start_time := 1, end_time := 2, text := "b",
          speaker_id := none, confidence := none }).get_merged_result.segments.head
          (by decide)).start_time :=
  (c9_merged_result _).2.2.2.2 (by decide)

/-! ### Recording engine claims -/

/-- C3 counterexample. After a full start → receive 2 s of audio → stop
run, `stop()` reports the segmenter's cumulative received duration (2 s,
nonzero), but the elapsed-time query in the resulting `STOPPED` state
returns 0, not that cumulative duration: `stop()`'s cleanup dropped the
segmenter, so the fallback hits the final `return 0.0` branch. -/
theorem c3_elapsed_cex :
    ((((mkRecordingEngine.start 1 0 true 1 1 60 (1 / 2)).2.handle_audio
        [0, 0, 0, 0]).stop).1 = 2 ∧
     (((mkRecordingEngine.start 1 0 true 1 1 60 (1 / 2)).2.handle_audio
        [0, 0, 0, 0]).stop).2.state = RecordingState.STOPPED) ∧
    ¬ (((((mkRecordingEngine.start 1 0 true 1 1 60 (1 / 2)).2.handle_audio
        [0, 0, 0, 0]).stop).2.get_elapsed_seconds 10) =
       ((((mkRecordingEngine.start 1 0 true 1 1 60 (1 / 2)).2.handle_audio
        [0, 0, 0, 0]).stop).1)) := by
  refine ⟨⟨by decide, by decide⟩, by decide⟩

/-- C3 amended. While `RECORDING` (with a session start recorded) the
elapsed query returns wall-clock now minus the session start; in any
other state it returns the attached segmenter's cumulative received
duration when a segmenter is still attached and 0 when none is — and
`stop()` detaches the segmenter, so after `stop()` completes the query
returns 0 even though `stop()` itself returned the cumulative
duration. -/
theorem c3_elapsed_amended (e : RecordingEngine) (now : ℚ) :
    (∀ t : ℚ, e.start_time = some t → e.state = RecordingState.RECORDING →
      e.get_elapsed_seconds now = now - t) ∧
    (e.state ≠ RecordingState.RECORDING → ∀ w : ChunkWriter, e.chunk_writer = some w →
      e.get_elapsed_seconds now = w.get_total_duration) ∧
    (e.state ≠ RecordingState.RECORDING → e.chunk_writer = none →
      e.get_elapsed_seconds now = 0) ∧
    (e.state = RecordingState.RECORDING →
      (e.stop).2.chunk_writer = none ∧
      (e.stop).2.state = RecordingState.STOPPED ∧
      (e.stop).2.get_elapsed_seconds now = 0) := by
  refine ⟨?_, ?_, ?_, ?_⟩
  · intro t ht hs
    simp [RecordingEngine.get_elapsed_seconds, ht, hs]
  · intro hs w hw
    simp [RecordingEngine.get_elapsed_seconds, hs, hw]
  · intro hs hw
    simp [RecordingEngine.get_elapsed_seconds, hs, hw]
  · intro hs
    refine ⟨?_, ?_, ?_⟩ <;>
      simp [RecordingEngine.stop, hs, RecordingEngine.get_elapsed_seconds]

/-- Witness for C3's amended claim at a concrete recording session. -/
theorem c3_elapsed_amended_witness :
    ((mkRecordingEngine.start 1 0 true 1 1 60 (1 / 2)).2.stop).2.chunk_writer = none ∧
    ((mkRecordingEngine.start 1 0 true 1 1 60 (1 / 2)).2.stop).2.state =
      RecordingState.STOPPED ∧
    ((mkRecordingEngine.start 1 0 true 1 1 60 (1 / 2)).2.stop).2.get_elapsed_seconds 5 = 0 :=
  (c3_elapsed_amended (mkRecordingEngine.start 1 0 true 1 1 60 (1 / 2)).2 5).2.2.2 (by decide)

/-! ### Pipeline claims -/

/-- C6. Calling `process` while the pipeline is in `TRANSCRIBING`,
`MERGING` or `GENERATING` returns failure immediately, leaves the
pipeline state and the current meeting identifier untouched, and
produces no persistence or provider effects at all. -/
theorem c6_process_rejected (p : MeetingPipeline) (env : PipelineEnv) (meeting_id : Nat)
    (audio_urls : List String)
    (h : p.state = PipelineState.TRANSCRIBING ∨ p.state = PipelineState.MERGING ∨
         p.state = PipelineState.GENERATING) :
    p.process env meeting_id audio_urls = (false, p, []) := by
  rcases h with h | h | h <;> simp [MeetingPipeline.process, h]

/-- Witness for C6: a pipeline observed mid-run in `TRANSCRIBING`. -/
theorem c6_process_rejected_witness :
    MeetingPipeline.process
      { state := PipelineState.TRANSCRIBING, current_meeting_id := some 1 }
      { meetings := fun _ => none, chunks_nonempty := fun _ => false,
        notes := fun _ => [], asr_transcribe_url := fun _ => Except.error "",
        generate := fun _ _ _ => Except.error "" } 1 []
      = (false, { state := PipelineState.TRANSCRIBING, current_meeting_id := some 1 }, []) :=
  c6_process_rejected _ _ _ _ (Or.inl rfl)

/-- C7. When the generation stage is reached with a transcript holding
zero spans, the pipeline persists the "（无转写内容）" placeholder with
empty decisions, action-items and topics, succeeds, and never invokes
the generation provider. -/
theorem c7_empty_transcript_placeholder (env : PipelineEnv) (meeting_id : Nat)
    (transcript : TranscriptResult) (h : transcript.segments = []) :
    pipelineGenerateMinutes env meeting_id transcript =
      ([PipeEvent.saveMinutes meeting_id "（无转写内容）" [] [] []], Except.ok ()) ∧
    ∀ e ∈ (pipelineGenerateMinutes env meeting_id transcript).1,
      ∀ mid : Nat, e ≠ PipeEvent.genCall mid := by
  constructor
  · simp [pipelineGenerateMinutes, h]
  · intro e he mid
    simp [pipelineGenerateMinutes, h] at he
    subst he
    simp

/-- Witness for C7 at a concrete empty transcript. -/
theorem c7_empty_transcript_placeholder_witness :
    pipelineGenerateMinutes
      { meetings := fun _ => some { id := 5, title := "t" },
        chunks_nonempty := fun _ => false, notes := fun _ => [],
        asr_transcribe_url := fun _ => Except.error "",
        generate := fun _ _ _ => Except.error "" } 5
      { segments := [], full_text := "", duration := 0, language := none } =
      ([PipeEvent.saveMinutes 5 "（无转写内容）" [] [] []], Except.ok ()) :=
  (c7_empty_transcript_placeholder _ 5 _ rfl).1

/-! ### Chunk writer timing lemmas (C8) -/

/-- The arithmetic behind the segment timing formula: the code computes
the raw start `index * D` minus `O` only for a nonzero index, while the
claim's formula is `max 0 (index * D - O)`; the two clamped values agree
whenever `0 ≤ O ≤ D`, and the raw start is then already nonnegative. -/
theorem chunk_timing_arith (idx : Nat) (D O : ℚ) (hO : 0 ≤ O) (hOD : O ≤ D) :
    max 0 ((idx : ℚ) * D - (if 0 < idx then O else 0)) = max 0 ((idx : ℚ) * D - O) ∧
    (idx : ℚ) * D - (if 0 < idx then O else 0) =
      max 0 ((idx : ℚ) * D - (if 0 < idx then O else 0)) := by
  have hD : 0 ≤ D := le_trans hO hOD
  by_cases h : 0 < idx
  · have h1 : (1 : ℚ) ≤ (idx : ℚ) := by exact_mod_cast h
    have hDle : D ≤ (idx : ℚ) * D := by
      calc D = 1 * D := (one_mul D).symm
        _ ≤ (idx : ℚ) * D := mul_le_mul_of_nonneg_right h1 hD
    have hnn : 0 ≤ (idx : ℚ) * D - O := by linarith
    rw [if_pos h, max_eq_right hnn]
    exact ⟨rfl, rfl⟩
  · have h0 : idx = 0 := by omega
    subst h0
    rw [if_neg h]
    rw [show ((0 : Nat) : ℚ) * D - 0 = 0 by ring, show ((0 : Nat) : ℚ) * D - O = -O by ring]
    rw [max_self, max_eq_left (neg_nonpos.mpr hO)]
    exact ⟨rfl, rfl⟩

/-- A segment emitted by `_save_chunk` carries the claimed timing:
start `max 0 (index * D - O)` and end `start + len / bytes_per_second`. -/
theorem ChunkWriter.save_chunk_emit (w : ChunkWriter) (ci : ChunkInfo)
    (hO : 0 ≤ w.overlap_duration) (hOD : w.overlap_duration ≤ w.chunk_duration)
    (h : (w.save_chunk).1 = some ci) :
    ci.start_time = max 0 ((ci.index : ℚ) * w.chunk_duration - w.overlap_duration) ∧
    ci.end_time = ci.start_time +
      (ci.data.length : ℚ) / ((w.bytes_per_second : Nat) : ℚ) := by
  have harith := chunk_timing_arith w.chunk_index w.chunk_duration w.overlap_duration hO hOD
  simp only [ChunkWriter.save_chunk] at h
  split at h
  · simp at h
  · split at h
    · simp at h
    · simp only [Option.some.injEq] at h
      subst h
      exact ⟨harith.1, by rw [← harith.2]⟩

/-- The final segment flushed by `stop()` carries the same timing. -/
theorem ChunkWriter.stop_emit (w : ChunkWriter) (ci : ChunkInfo)
    (hO : 0 ≤ w.overlap_duration) (hOD : w.overlap_duration ≤ w.chunk_duration)
    (h : (w.stop).1 = some ci) :
    ci.start_time = max 0 ((ci.index : ℚ) * w.chunk_duration - w.overlap_duration) ∧
    ci.end_time = ci.start_time +
      (ci.data.length : ℚ) / ((w.bytes_per_second : Nat) : ℚ) := by
  have harith := chunk_timing_arith w.chunk_index w.chunk_duration w.overlap_duration hO hOD
  simp only [ChunkWriter.stop] at h
  split at h
  · simp at h
  · split at h
    · simp at h
    · simp only [Option.some.injEq] at h
      subst h
      exact ⟨harith.1, by rw [← harith.2]⟩

/-- The configuration fields survive `_save_chunk`. -/
theorem ChunkWriter.save_chunk_config (w : ChunkWriter) :
    (w.save_chunk).2.chunk_duration = w.chunk_duration ∧
    (w.save_chunk).2.overlap_duration = w.overlap_duration ∧
    (w.save_chunk).2.sample_rate = w.sample_rate ∧
    (w.save_chunk).2.channels = w.channels := by
  simp only [ChunkWriter.save_chunk]
  split
  · exact ⟨rfl, rfl, rfl, rfl⟩
  · split
    · exact ⟨rfl, rfl, rfl, rfl⟩
    · exact ⟨rfl, rfl, rfl, rfl⟩

/-- The configuration fields survive `write`. -/
theorem ChunkWriter.write_config (w : ChunkWriter) (d : List Nat) :
    (w.write d).2.chunk_duration = w.chunk_duration ∧
    (w.write d).2.overlap_duration = w.overlap_duration ∧
    (w.write d).2.sample_rate = w.sample_rate ∧
    (w.write d).2.channels = w.channels := by
  simp only [ChunkWriter.write]
  split
  · exact ⟨rfl, rfl, rfl, rfl⟩
  · split
    · exact ChunkWriter.save_chunk_config _
    · exact ⟨rfl, rfl, rfl, rfl⟩

/-- A segment emitted by `write` carries the claimed timing (it comes
out of `_save_chunk` on a state with the same configuration). -/
theorem ChunkWriter.write_emit (w : ChunkWriter) (d : List Nat) (ci : ChunkInfo)
    (hO : 0 ≤ w.overlap_duration) (hOD : w.overlap_duration ≤ w.chunk_duration)
    (h : (w.write d).1 = some ci) :
    ci.start_time = max 0 ((ci.index : ℚ) * w.chunk_duration - w.overlap_duration) ∧
    ci.end_time = ci.start_time +
      (ci.data.length : ℚ) / ((w.bytes_per_second : Nat) : ℚ) := by
  simp only [ChunkWriter.write] at h
  split at h
  · simp at h
  · split at h
    · exact ChunkWriter.save_chunk_emit { w with buffer := w.buffer.write d } ci hO hOD h
    · simp at h

/-- The configuration fields survive any sequence of writes. -/
theorem runWriter_config (datas : List (List Nat)) :
    ∀ w : ChunkWriter,
      (runWriter w datas).2.chunk_duration = w.chunk_duration ∧
      (runWriter w datas).2.overlap_duration = w.overlap_duration ∧
      (runWriter w datas).2.sample_rate = w.sample_rate ∧
      (runWriter w datas).2.channels = w.channels := by
  induction datas with
  | nil => intro w; exact ⟨rfl, rfl, rfl, rfl⟩
  | cons d rest ih =>
    intro w
    have h1 := ih (w.write d).2
    have h2 := ChunkWriter.write_config w d
    simp only [runWriter]
    exact ⟨h1.1.trans h2.1, h1.2.1.trans h2.2.1, h1.2.2.1.trans h2.2.2.1,
      h1.2.2.2.trans h2.2.2.2⟩

/-- Every segment emitted along a sequence of writes carries the claimed
timing. -/
theorem runWriter_emit (datas : List (List Nat)) :
    ∀ w : ChunkWriter, 0 ≤ w.overlap_duration →
      w.overlap_duration ≤ w.chunk_duration →
      ∀ ci ∈ (runWriter w datas).1,
        ci.start_time = max 0 ((ci.index : ℚ) * w.chunk_duration - w.overlap_duration) ∧
        ci.end_time = ci.start_time +
          (ci.data.length : ℚ) / ((w.bytes_per_second : Nat) : ℚ) := by
  induction datas with
  | nil => intro w _ _ ci hci; simp [runWriter] at hci
  | cons d rest ih =>
    intro w hO hOD ci hci
    simp only [runWriter, List.mem_append] at hci
    rcases hci with hci | hci
    · have hsome : (w.write d).1 = some ci := by
        cases hw : (w.write d).1 with
        | none => rw [hw] at hci; simp at hci
        | some c => rw [hw] at hci; simp at hci; subst hci; rfl
      exact ChunkWriter.write_emit w d ci hO hOD hsome
    · have hcfg := ChunkWriter.write_config w d
      have h := ih (w.write d).2 (hcfg.2.1 ▸ hO) (by rw [hcfg.2.1, hcfg.1]; exact hOD) ci hci
      rw [hcfg.1, hcfg.2.1] at h
      have hbps : (w.write d).2.bytes_per_second = w.bytes_per_second := by
        simp [ChunkWriter.bytes_per_second, hcfg.2.2.1, hcfg.2.2.2]
      rw [hbps] at h
      exact h

/-- C8. Every segment emitted by the Chunk Segmenter — the mid-stream
emissions of `write` and the final segment flushed by `stop()` — with
index `i` has start time `i * D - O` clamped below at 0 (so 0 for
`i = 0`) and end time equal to that start time plus the emitted byte
count divided by bytes-per-second (assuming a sane configuration
`0 ≤ O ≤ D`, as the defaults `D = 60`, `O = 0.5` are). -/
theorem c8_segment_timing (sr ch : Nat) (D O : ℚ) (datas : List (List Nat))
    (hO : 0 ≤ O) (hOD : O ≤ D) :
    ∀ ci ∈ (runWriterStop ((mkChunkWriter sr ch D O).start) datas).1,
      ci.start_time = max 0 ((ci.index : ℚ) * D - O) ∧
      ci.end_time = ci.start_time + (ci.data.length : ℚ) / ((sr * ch * 2 : Nat) : ℚ) := by
  intro ci hci
  have hw0O : ((mkChunkWriter sr ch D O).start).overlap_duration = O := rfl
  have hw0D : ((mkChunkWriter sr ch D O).start).chunk_duration = D := rfl
  simp only [runWriterStop, List.mem_append] at hci
  rcases hci with hci | hci
  · have h := runWriter_emit datas ((mkChunkWriter sr ch D O).start)
      (by rw [hw0O]; exact hO) (by rw [hw0O, hw0D]; exact hOD) ci hci
    rw [hw0D, hw0O] at h
    exact h
  · set wfin := (runWriter ((mkChunkWriter sr ch D O).start) datas).2 with hwfin
    have hcfg := runWriter_config datas ((mkChunkWriter sr ch D O).start)
    have hsome : (wfin.stop).1 = some ci := by
      cases hw : (wfin.stop).1 with
      | none => rw [hw] at hci; simp at hci
      | some c => rw [hw] at hci; simp at hci; subst hci; rfl
    have h := ChunkWriter.stop_emit wfin ci
      (by rw [← hwfin] at hcfg; rw [hcfg.2.1, hw0O]; exact hO)
      (by rw [← hwfin] at hcfg; rw [hcfg.2.1, hcfg.1, hw0O, hw0D]; exact hOD) hsome
    rw [← hwfin] at hcfg
    rw [hcfg.1, hcfg.2.1, hw0O, hw0D] at h
    have hbps : wfin.bytes_per_second = sr * ch * 2 := by
      simp [ChunkWriter.bytes_per_second, hcfg.2.2.1, hcfg.2.2.2, mkChunkWriter,
        ChunkWriter.start]
    rw [hbps] at h
    exact h

/-- Witness for C8 at a concrete run: `D = 1`, `O = 1/2`, one write of a
full chunk followed by `stop()`. -/
theorem c8_segment_timing_witness :
    (0 : ℚ) ≤ 1 / 2 ∧ (1 : ℚ) / 2 ≤ 1 ∧
    ∀ ci ∈ (runWriterStop ((mkChunkWriter 1 1 1 (1 / 2)).start) [[0, 0]]).1,
      ci.start_time = max 0 ((ci.index : ℚ) * 1 - 1 / 2) ∧
      ci.end_time = ci.start_time + (ci.data.length : ℚ) / ((1 * 1 * 2 : Nat) : ℚ) :=
  ⟨by norm_num, by norm_num,
   c8_segment_timing 1 1 1 (1 / 2) [[0, 0]] (by norm_num) (by norm_num)⟩

/-! ### Chunk writer counting lemmas (C2) -/

/-- `pyInt` of a product of naturals is exact. -/
theorem pyInt_natCast_mul (a n : Nat) :
    (pyInt ((a : ℚ) * ((n : Nat) : ℚ))).toNat = a * n := by
  have h : (a : ℚ) * ((n : Nat) : ℚ) = (((a * n : Nat)) : ℚ) := by push_cast; ring
  rw [h]
  unfold pyInt
  rw [Rat.num_natCast, Rat.den_natCast]
  simp [Int.tdiv_one]
  omega

/-- The read loop returns `min n available` bytes and leaves the rest. -/
theorem readLoop_spec :
    ∀ (buf : List (List Nat)) (n : Nat),
      (readLoop buf n).1.length = min n ((buf.map List.length).sum) ∧
      ((readLoop buf n).2.map List.length).sum
        = ((buf.map List.length).sum) - (readLoop buf n).1.length := by
  intro buf
  induction buf with
  | nil => intro n; cases n <;> simp [readLoop]
  | cons chunk rest ih =>
    intro n
    cases n with
    | zero => simp [readLoop]
    | succ r =>
      by_cases hle : chunk.length ≤ r + 1
      · have ihr := ih (r + 1 - chunk.length)
        simp only [readLoop, if_pos hle, List.length_append, List.map_cons, List.sum_cons]
        constructor
        · rw [ihr.1]; omega
        · rw [ihr.2, ihr.1]; omega
      · simp only [readLoop, if_neg hle, List.length_take, List.map_cons, List.sum_cons,
          List.length_drop]
        constructor
        · omega
        · omega

/-- Characterization of `read(n)` on a well-formed buffer: it removes
exactly `min n available` bytes, preserves well-formedness, and leaves
the configuration and the received counter alone. -/
theorem AudioBuffer.read_some_spec (b : AudioBuffer) (n : Nat) (hwf : b.wf) :
    (b.read (some n)).1.length = min n b.total_bytes ∧
    (b.read (some n)).2.wf ∧
    (b.read (some n)).2.total_bytes = b.total_bytes - min n b.total_bytes ∧
    (b.read (some n)).2.max_bytes = b.max_bytes ∧
    (b.read (some n)).2.sample_rate = b.sample_rate ∧
    (b.read (some n)).2.channels = b.channels ∧
    (b.read (some n)).2.total_received_bytes = b.total_received_bytes := by
  unfold AudioBuffer.wf at hwf
  by_cases hb : b.buffer = []
  · have h0 : b.total_bytes = 0 := by rw [hwf, hb]; rfl
    simp [AudioBuffer.read, hb, AudioBuffer.wf, h0, hwf]
  · have hrl := readLoop_spec b.buffer n
    simp only [AudioBuffer.read, if_neg hb]
    refine ⟨by rw [hrl.1, hwf], ?_, ?_, trivial, trivial, trivial, trivial⟩
    · show _ = _
      rw [hrl.2, hrl.1, hwf]
    · rw [hrl.1, hwf]

/-- When the result stays within the cap, `write` is a plain append. -/
theorem AudioBuffer.write_noevict (b : AudioBuffer) (d : List Nat)
    (h : b.total_bytes + d.length ≤ b.max_bytes) :
    b.write d = { b with
      buffer := b.buffer ++ [d]
      total_bytes := b.total_bytes + d.length
      total_received_bytes := b.total_received_bytes + d.length } := by
  simp [AudioBuffer.write, evictLoop_noop _ _ _ h]

/-- The invariant carried through a `D = 60` run of the chunk writer
whose writes all stay below one chunk: configuration pinned, running,
well-formed buffer with the right cap, and strictly less than one chunk
of bytes pending. -/
def c2Inv (sr ch : Nat) (w : ChunkWriter) : Prop :=
  w.sample_rate = sr ∧ w.channels = ch ∧ w.chunk_duration = 60 ∧
  w.is_running = true ∧ w.buffer.wf ∧
  w.buffer.sample_rate = sr ∧ w.buffer.channels = ch ∧
  w.buffer.max_bytes = 120 * (sr * ch * 2) ∧
  w.buffer.total_bytes < 60 * (sr * ch * 2)

/-- The started writer satisfies the invariant. -/
theorem c2Inv_start (sr ch : Nat) (hb : 0 < sr * ch) (O : ℚ) :
    c2Inv sr ch ((mkChunkWriter sr ch 60 O).start) := by
  refine ⟨rfl, rfl, rfl, rfl, rfl, rfl, rfl, ?_, ?_⟩
  · show (pyInt ((60 : ℚ) * 2 * ((sr * ch * 2 : Nat) : ℚ))).toNat = 120 * (sr * ch * 2)
    rw [show (60 : ℚ) * 2 = ((120 : Nat) : ℚ) by norm_num]
    exact pyInt_natCast_mul 120 (sr * ch * 2)
  · show 0 < 60 * (sr * ch * 2)
    positivity

/-- One `_save_chunk` on an invariant state holding at least a full
chunk (but under the 2-chunk cap) emits exactly one segment, removes
exactly one chunk of bytes, and restores the invariant. -/
theorem c2_save_step (sr ch : Nat) (w : ChunkWriter)
    (hsr : w.sample_rate = sr) (hch : w.channels = ch) (hD : w.chunk_duration = 60)
    (hrun : w.is_running = true) (hwf : w.buffer.wf)
    (hbsr : w.buffer.sample_rate = sr) (hbch : w.buffer.channels = ch)
    (hmax : w.buffer.max_bytes = 120 * (sr * ch * 2))
    (hC : 0 < 60 * (sr * ch * 2))
    (hge : 60 * (sr * ch * 2) ≤ w.buffer.total_bytes)
    (hlt2 : w.buffer.total_bytes < 120 * (sr * ch * 2)) :
    (w.save_chunk).1.toList.length = 1 ∧
    c2Inv sr ch (w.save_chunk).2 ∧
    (w.save_chunk).2.buffer.total_bytes = w.buffer.total_bytes - 60 * (sr * ch * 2) := by
  have hbps : w.bytes_per_second = sr * ch * 2 := by
    simp [ChunkWriter.bytes_per_second, hsr, hch]
  have hcb : (pyInt (w.chunk_duration * ((w.bytes_per_second : Nat) : ℚ))).toNat
      = 60 * (sr * ch * 2) := by
    rw [hD, hbps, show (60 : ℚ) = ((60 : Nat) : ℚ) by norm_num]
    exact pyInt_natCast_mul 60 (sr * ch * 2)
  have hread := w.buffer.read_some_spec (60 * (sr * ch * 2)) hwf
  have hmin : min (60 * (sr * ch * 2)) w.buffer.total_bytes = 60 * (sr * ch * 2) :=
    min_eq_left hge
  have hne : (w.buffer.read (some (60 * (sr * ch * 2)))).1 ≠ [] := by
    intro hnil
    have hl := hread.1
    rw [hnil, hmin] at hl
    simp only [List.length_nil] at hl
    omega
  simp only [ChunkWriter.save_chunk, hcb]
  rw [if_neg (show ¬(w.is_running = false) by rw [hrun]; simp)]
  rw [if_neg hne]
  refine ⟨rfl, ⟨hsr, hch, hD, hrun, hread.2.1, ?_, ?_, ?_, ?_⟩, ?_⟩
  · show (w.buffer.read (some (60 * (sr * ch * 2)))).2.sample_rate = sr
    rw [hread.2.2.2.2.1, hbsr]
  · show (w.buffer.read (some (60 * (sr * ch * 2)))).2.channels = ch
    rw [hread.2.2.2.2.2.1, hbch]
  · show (w.buffer.read (some (60 * (sr * ch * 2)))).2.max_bytes = 120 * (sr * ch * 2)
    rw [hread.2.2.2.1, hmax]
  · show (w.buffer.read (some (60 * (sr * ch * 2)))).2.total_bytes < 60 * (sr * ch * 2)
    rw [hread.2.2.1, hmin]
    omega
  · show (w.buffer.read (some (60 * (sr * ch * 2)))).2.total_bytes
        = w.buffer.total_bytes - 60 * (sr * ch * 2)
    rw [hread.2.2.1, hmin]

/-- One `write` on an invariant state, carrying at most a chunk of
bytes: the invariant is preserved and the number of emitted segments
(0 or 1) balances the byte bookkeeping. -/
theorem c2_write_step (sr ch : Nat) (w : ChunkWriter) (d : List Nat)
    (hC : 0 < 60 * (sr * ch * 2))
    (hinv : c2Inv sr ch w) (hd : d.length ≤ 60 * (sr * ch * 2)) :
    c2Inv sr ch (w.write d).2 ∧
    ((w.write d).1.toList.length) * (60 * (sr * ch * 2)) + (w.write d).2.buffer.total_bytes
      = w.buffer.total_bytes + d.length := by
  obtain ⟨hsr, hch, hD, hrun, hwf, hbsr, hbch, hmax, hlt⟩ := hinv
  have hbw := w.buffer.write_noevict d (by rw [hmax]; omega)
  have hwf' : (w.buffer.write d).wf := w.buffer.write_wf d hwf
  have hbt : (w.buffer.write d).total_bytes = w.buffer.total_bytes + d.length := by
    rw [hbw]
  have hbsr' : (w.buffer.write d).sample_rate = sr := by rw [hbw]; exact hbsr
  have hbch' : (w.buffer.write d).channels = ch := by rw [hbw]; exact hbch
  have hmax' : (w.buffer.write d).max_bytes = 120 * (sr * ch * 2) := by rw [hbw]; exact hmax
  have havail : (w.buffer.write d).available_seconds
      = ((w.buffer.total_bytes + d.length : Nat) : ℚ) / ((sr * ch * 2 : Nat) : ℚ) := by
    unfold AudioBuffer.available_seconds AudioBuffer.available_bytes
      AudioBuffer.bytes_per_second
    rw [hbt, hbsr', hbch']
  have hCpos : (0 : ℚ) < ((sr * ch * 2 : Nat) : ℚ) := by
    have : 0 < sr * ch * 2 := by omega
    exact_mod_cast this
  have hiff : (w.chunk_duration ≤ (w.buffer.write d).available_seconds) ↔
      (60 * (sr * ch * 2) ≤ w.buffer.total_bytes + d.length) := by
    rw [hD, havail, le_div_iff₀ hCpos]
    constructor
    · intro h; exact_mod_cast h
    · intro h; exact_mod_cast h
  simp only [ChunkWriter.write]
  rw [if_neg (show ¬(w.is_running = false) by rw [hrun]; simp)]
  by_cases htrig : 60 * (sr * ch * 2) ≤ w.buffer.total_bytes + d.length
  · rw [if_pos (hiff.mpr htrig)]
    have hstep := c2_save_step sr ch { w with buffer := w.buffer.write d }
      hsr hch hD hrun hwf' hbsr' hbch' hmax' hC (by rw [hbt]; exact htrig)
      (by rw [hbt]; omega)
    refine ⟨hstep.2.1, ?_⟩
    rw [hstep.1, hstep.2.2, hbt]
    omega
  · rw [if_neg (fun hc => htrig (hiff.mp hc))]
    refine ⟨⟨hsr, hch, hD, hrun, hwf', hbsr', hbch', hmax', by rw [hbt]; omega⟩, ?_⟩
    simp [hbt]

/-- Running any sequence of at-most-one-chunk writes from an invariant
state: the number of emitted (non-final) segments times the chunk size,
plus the bytes left pending, accounts exactly for every byte written. -/
theorem runWriter_count (sr ch : Nat) (hC : 0 < 60 * (sr * ch * 2)) :
    ∀ (datas : List (List Nat)) (w : ChunkWriter), c2Inv sr ch w →
      (∀ d ∈ datas, d.length ≤ 60 * (sr * ch * 2)) →
      ((runWriter w datas).1).length * (60 * (sr * ch * 2))
          + (runWriter w datas).2.buffer.total_bytes
        = w.buffer.total_bytes + (datas.map List.length).sum ∧
      c2Inv sr ch (runWriter w datas).2 := by
  intro datas
  induction datas with
  | nil =>
    intro w hinv _
    exact ⟨by simp [runWriter], hinv⟩
  | cons d rest ih =>
    intro w hinv hds
    have hstep := c2_write_step sr ch w d hC hinv (hds d (by simp))
    have hrest := ih (w.write d).2 hstep.1 (fun x hx => hds x (by simp [hx]))
    refine ⟨?_, by simpa [runWriter] using hrest.2⟩
    have h1 := hstep.2
    have h2 := hrest.1
    simp only [runWriter, List.length_append, List.map_cons, List.sum_cons]
    calc ((w.write d).1.toList.length + ((runWriter (w.write d).2 rest).1).length)
            * (60 * (sr * ch * 2)) + (runWriter (w.write d).2 rest).2.buffer.total_bytes
        = (w.write d).1.toList.length * (60 * (sr * ch * 2))
            + (((runWriter (w.write d).2 rest).1).length * (60 * (sr * ch * 2))
              + (runWriter (w.write d).2 rest).2.buffer.total_bytes) := by ring
      _ = (w.write d).1.toList.length * (60 * (sr * ch * 2))
            + ((w.write d).2.buffer.total_bytes + (rest.map List.length).sum) := by rw [h2]
      _ = ((w.write d).1.toList.length * (60 * (sr * ch * 2))
            + (w.write d).2.buffer.total_bytes) + (rest.map List.length).sum := by ring
      _ = (w.buffer.total_bytes + d.length) + (rest.map List.length).sum := by rw [h1]
      _ = w.buffer.total_bytes + (d.length + (rest.map List.length).sum) := by ring

set_option maxRecDepth 10000

/-- C2 counterexample. The claim's "regardless of how the stream is
split" fails: a single `write` carrying 120 seconds of audio (with
`D = 60 s`, bytes-per-second 2) triggers at most one chunk save — the
trigger is an `if`, not a loop — so only 1 non-final segment is emitted
while `floor(T/D) = 2`. -/
theorem c2_segment_count_cex :
    ((runWriter ((mkChunkWriter 1 1 60 (1 / 2)).start) [List.replicate 240 0]).1).length ≠
      ⌊((([List.replicate 240 0].map List.length).sum : ℚ) / ((1 * 1 * 2 : Nat) : ℚ)) / 60⌋₊ := by
  decide

/-- C2 amended. For the Chunk Segmenter with `D = 60 s`, `O = 0.5 s` and
any positive byte rate, PROVIDED each individual `write` call carries at
most one chunk (`D` seconds) of audio, the number of non-final segments
emitted equals `floor(T / D)` where `T` is the total received duration
in seconds. (The unrestricted claim is refuted by the counterexample:
each `write` triggers at most one save.) -/
theorem c2_segment_count_amended (sr ch : Nat) (hpos : 0 < sr * ch)
    (datas : List (List Nat))
    (hsmall : ∀ d ∈ datas, d.length ≤ 60 * (sr * ch * 2)) :
    ((runWriter ((mkChunkWriter sr ch 60 (1 / 2)).start) datas).1).length
      = ⌊((((datas.map List.length).sum : Nat) : ℚ) / ((sr * ch * 2 : Nat) : ℚ)) / 60⌋₊ := by
  have hC : 0 < 60 * (sr * ch * 2) := by positivity
  have h := runWriter_count sr ch hC datas _ (c2Inv_start sr ch hpos (1 / 2)) hsmall
  have h0 : ((mkChunkWriter sr ch 60 (1 / 2)).start).buffer.total_bytes = 0 := rfl
  obtain ⟨heq, hinv⟩ := h
  rw [h0, Nat.zero_add] at heq
  have hrem := hinv.2.2.2.2.2.2.2.2
  have hcount : ((runWriter ((mkChunkWriter sr ch 60 (1 / 2)).start) datas).1).length
      = (datas.map List.length).sum / (60 * (sr * ch * 2)) := by
    rw [← heq]
    rw [Nat.add_comm]
    rw [Nat.add_mul_div_right _ _ hC, Nat.div_eq_of_lt hrem, Nat.zero_add]
  rw [hcount, div_div]
  rw [show ((sr * ch * 2 : Nat) : ℚ) * 60 = (((sr * ch * 2) * 60 : Nat) : ℚ) by push_cast; ring]
  rw [Nat.floor_div_nat, Nat.floor_natCast, Nat.mul_comm]

/-- Witness for C2's amended claim: two 30-second writes produce exactly
one non-final segment, `floor(60/60)`. -/
theorem c2_segment_count_amended_witness :
    (0 < 1 * 1) ∧
    (∀ d ∈ [List.replicate 60 0, List.replicate 60 0], d.length ≤ 60 * (1 * 1 * 2)) ∧
    ((runWriter ((mkChunkWriter 1 1 60 (1 / 2)).start)
        [List.replicate 60 0, List.replicate 60 0]).1).length
      = ⌊(((([List.replicate 60 0, List.replicate 60 0].map List.length).sum : Nat) : ℚ)
          / ((1 * 1 * 2 : Nat) : ℚ)) / 60⌋₊ :=
  ⟨by decide, by decide,
   c2_segment_count_amended 1 1 (by decide) [List.replicate 60 0, List.replicate 60 0]
     (by decide)⟩

end MeetConclusion
